import Mathlib

/-!
Verification of the chunked batch submission/collection pipeline of this
repository (`src/main.py`, `src/helpers/batch.py`, `src/helpers/config.py`,
`src/helpers/models.py`, `src/helpers/aggregate.py`).

The remote compute service (the cspark SDK) is an external collaborator, and
`src/helpers/chunk.py` / `src/helpers/threads.py` (imported by
`src/helpers/batch.py`) are not among the visible sources.  Where their
behaviour decides a property they are modelled from the specification; every
such definition says so in its doc comment.  All other definitions are
translated directly from the Python sources.
-/

namespace EquitableBatch

/-- Config.NUM_CHUNK, the configured chunk count (src/helpers/config.py line 22). -/
def numChunk : Nat := 18

/-- Config.CHUNK_SIZE, the configured chunk size (src/helpers/config.py line 23). -/
def chunkSize : Nat := 48

/-- METADATA max_runners, the published remote worker capacity
(src/helpers/config.py line 9). -/
def maxRunners : Nat := 100

/-- The utilization target 0.9 passed to run_threads
(src/helpers/batch.py line 23), as an exact rational. -/
def targetFraction : Rat := 9 / 10

/-!
## A model of one run of run_batch (src/helpers/batch.py)

`run_batch` creates a remote batch pipeline, registers a SIGINT handler,
runs `process_chunks`, and cleans up in except/finally blocks.  We model the
observable call sequence of one run as a list of events, together with the
pipeline scope state and the ResultSink buffer state threaded through the
control flow.  The control flow itself (which calls happen in which order on
which path) is translated from src/helpers/batch.py lines 13-70.
-/

/-- Observable calls made during one run of run_batch. -/
inductive Event
  | createBatch
  | chunkWork
  | flushSave
  | disposeCall
  | statusLog
  | logError
  | cancelCall
  | closeCall
  | exitEvent
deriving DecidableEq

/-- Scoped lifecycle state of the remote pipeline, as read by
`pipeline.state == "open"` in src/helpers/batch.py lines 54 and 59. -/
inductive PipeState
  | opened
  | closed
deriving DecidableEq

/-- State threaded through a run: the pipeline scope state, whether the
ResultSink buffer still holds unflushed chunk results, and the events so far. -/
structure RunState where
  pipe : PipeState
  unflushed : Bool
  events : List Event
deriving DecidableEq

/-- Appends an observable event. -/
def emit (s : RunState) (e : Event) : RunState :=
  { s with events := s.events ++ [e] }

/-- pipeline.dispose().  Modelled from the spec: dispose is the scoped release
of the remote resources, so afterwards the pipeline is no longer in state
"open".  (The cspark Pipeline itself is an external collaborator.) -/
def disposeStep (s : RunState) : RunState :=
  { emit s Event.disposeCall with pipe := PipeState.closed }

/-- pipeline.cancel().  Modelled from the spec: cancel is a best-effort,
asynchronous, idempotent abort request sent to the remote job; it is not the
scoped release itself, and dispose/close must still run afterwards "even if
cancellation is in progress", so the scope state is unchanged. -/
def cancelStep (s : RunState) : RunState :=
  emit s Event.cancelCall

/-- pipeline.close(): release of the client handle, always last. -/
def closeStep (s : RunState) : RunState :=
  emit s Event.closeCall

/-- processor.save().  Modelled from the spec: the ResultSink (ChunkProcessor,
src/helpers/chunk.py, not among the visible sources) flushes its buffer to
durable storage and clears it; is_empty reports whether unflushed data
remains. -/
def saveStep (s : RunState) : RunState :=
  { emit s Event.flushSave with unflushed := false }

/-- src/helpers/batch.py lines 30-31: after run_threads returns,
`if not processor.is_empty: processor.save()`. -/
def finalFlush (s : RunState) : RunState :=
  if s.unflushed then saveStep s else s

/-- The finally block of run_batch (src/helpers/batch.py lines 57-61):
`if pipeline: if pipeline.state == "open": pipeline.dispose(); pipeline.close()`.
All modelled paths have a created pipeline. -/
def finallyBlock (s : RunState) : RunState :=
  closeStep (if s.pipe = PipeState.opened then disposeStep s else s)

/-- The except branch of run_batch (src/helpers/batch.py lines 52-56):
`logger.error(exc); if pipeline and pipeline.state == "open": pipeline.cancel()`. -/
def exceptBlock (s : RunState) : RunState :=
  let s1 := emit s Event.logError
  if s1.pipe = PipeState.opened then cancelStep s1 else s1

/-- How one run (with the pipeline successfully created, so the SIGINT handler
of line 44 is registered) unfolds.  `unflushed` says whether the ResultSink
buffer holds results not yet flushed when the run stops:

* `completes`: run_threads returns normally;
* `raisesDuring`: an otherwise-unhandled exception escapes during
  submission/collection, before the dispose of line 48;
* `raisesAfterDispose`: an exception is raised after the dispose of line 48
  (for example in get_status, line 50);
* `interrupted`: SIGINT is delivered mid-run, so handle_interrupt
  (lines 64-70) runs pipeline.cancel() and sys.exit(0); the resulting
  SystemExit is not an Exception, so it skips the except branch and reaches
  the finally block. -/
inductive RunEnv
  | completes (unflushed : Bool)
  | raisesDuring (unflushed : Bool)
  | raisesAfterDispose (unflushed : Bool)
  | interrupted (unflushed : Bool)

/-- How the run terminates at the process level. -/
inductive Outcome
  | returnedNormally
  | exitCodeZero
deriving DecidableEq

/-- The initial state once the pipeline is created and chunk work has begun. -/
def startState (u : Bool) : RunState :=
  { pipe := PipeState.opened, unflushed := u, events := [Event.createBatch, Event.chunkWork] }

/-- The state at the end of run_batch on each path, following the control flow
of src/helpers/batch.py lines 36-70. -/
def runBatchState : RunEnv → RunState
  | RunEnv.completes u =>
      finallyBlock (emit (disposeStep (finalFlush (startState u))) Event.statusLog)
  | RunEnv.raisesDuring u =>
      finallyBlock (exceptBlock (startState u))
  | RunEnv.raisesAfterDispose u =>
      finallyBlock (exceptBlock (disposeStep (finalFlush (startState u))))
  | RunEnv.interrupted u =>
      finallyBlock (cancelStep (startState u))

/-- The full observable event sequence of a run, ending with process exit. -/
def runBatchEvents (env : RunEnv) : List Event :=
  (runBatchState env).events ++ [Event.exitEvent]

/-- The process-level outcome.  Exceptions are caught and only logged
(src/helpers/batch.py lines 52-53), so run_batch returns normally; on SIGINT
the handler calls sys.exit(0), so the process exit code is zero. -/
def runOutcome : RunEnv → Outcome
  | RunEnv.interrupted _ => Outcome.exitCodeZero
  | _ => Outcome.returnedNormally

/-- Whether unflushed buffered results remain at process exit. -/
def unflushedAtExit (env : RunEnv) : Bool :=
  (runBatchState env).unflushed

/-- C1, counterexample: on the unhandled-exception exit path with buffered
results still unflushed, run_batch exits without ever calling processor.save,
and the buffer still holds unflushed data at process exit.  This refutes the
claim that the ResultSink buffer is flushed on every exit path. -/
theorem runBatch_error_path_leaves_buffer_unflushed :
    unflushedAtExit (RunEnv.raisesDuring true) = true ∧
    Event.flushSave ∉ runBatchEvents (RunEnv.raisesDuring true) := by
  decide

/-- C1, amended: the ResultSink buffer is flushed (and cleared) before process
exit whenever process_chunks returns normally (normal completion, or an
exception raised only after the dispose of line 48), but on the
unhandled-exception-during-run and interrupt exit paths run_batch performs no
flush, and unflushed buffered results remain at process exit. -/
theorem runBatch_flush_only_on_normal_completion :
    (∀ u : Bool,
      unflushedAtExit (RunEnv.completes u) = false ∧
      unflushedAtExit (RunEnv.raisesAfterDispose u) = false) ∧
    Event.flushSave ∉ runBatchEvents (RunEnv.raisesDuring true) ∧
    unflushedAtExit (RunEnv.raisesDuring true) = true ∧
    Event.flushSave ∉ runBatchEvents (RunEnv.interrupted true) ∧
    unflushedAtExit (RunEnv.interrupted true) = true := by
  refine ⟨fun u => ?_, by decide, by decide, by decide, by decide⟩
  cases u <;> exact ⟨by decide, by decide⟩

/-- C2: when SIGINT is delivered during the run, handle_interrupt invokes
pipeline.cancel, and from that point the run performs exactly the scoped
release (dispose then close) and exits: no further chunk work, waiting, or
flushing happens after the cancel, so the process exits promptly with the
resource release still executed before exit. -/
theorem interrupt_cancels_then_releases_then_exits :
    ∀ u : Bool,
      Event.cancelCall ∈ runBatchEvents (RunEnv.interrupted u) ∧
      (runBatchEvents (RunEnv.interrupted u)).dropWhile
          (fun e => !(e == Event.cancelCall)) =
        [Event.cancelCall, Event.disposeCall, Event.closeCall, Event.exitEvent] := by
  intro u
  cases u <;> exact ⟨by decide, by decide⟩

/-- C3: on every modelled exit path of a run (normal completion, exception
during the run, exception after dispose, interrupt), pipeline.dispose and
pipeline.close are each invoked exactly once, and the dispose occurs before
the close. -/
theorem dispose_close_once_in_order_on_every_path :
    ∀ env : RunEnv,
      (runBatchEvents env).count Event.disposeCall = 1 ∧
      (runBatchEvents env).count Event.closeCall = 1 ∧
      (runBatchEvents env).findIdx (· == Event.disposeCall) <
        (runBatchEvents env).findIdx (· == Event.closeCall) := by
  intro env
  cases env <;> rename_i u <;> cases u <;> exact ⟨by decide, by decide, by decide⟩

/-- C4, counterexample: after an otherwise-unhandled exception during the run,
run_batch only logs the error and returns normally; no failure outcome is
propagated (the process would continue with exit code zero).  This refutes the
part of the claim stating that the run reports a non-zero (failure) outcome. -/
theorem run_error_outcome_is_swallowed :
    runOutcome (RunEnv.raisesDuring true) = Outcome.returnedNormally ∧
    Event.logError ∈ runBatchEvents (RunEnv.raisesDuring true) := by
  decide

/-- C4, amended: any otherwise-unhandled exception during the run is caught at
the outermost scope of run_batch; the error is logged, and if the pipeline is
still in state "open" a cancel is invoked before the scoped dispose/close
cleanup (when the pipeline is no longer open, no cancel happens); run_batch
then swallows the exception and returns normally, so the failure is reported
only through the error log, not as a non-zero outcome. -/
theorem error_caught_cancel_before_cleanup_logged_only :
    ∀ u : Bool,
      runOutcome (RunEnv.raisesDuring u) = Outcome.returnedNormally ∧
      runBatchEvents (RunEnv.raisesDuring u) =
        [Event.createBatch, Event.chunkWork, Event.logError, Event.cancelCall,
         Event.disposeCall, Event.closeCall, Event.exitEvent] ∧
      Event.cancelCall ∉ runBatchEvents (RunEnv.raisesAfterDispose u) := by
  intro u
  cases u <;> exact ⟨by decide, by decide, by decide⟩

/-!
## Admission control of the scheduler (run_threads)

run_threads lives in src/helpers/threads.py, which is not among the visible
sources; its admission-control behaviour is modelled from the spec.
-/

/-- Modelled from the spec: one step of the in-flight counter of the scheduler
(run_threads, src/helpers/threads.py, not among the visible sources).  A new
chunk is admitted only while `in_flight < target * max_capacity`; a completed
or failed chunk frees its capacity. -/
inductive SchedStep (target : Rat) (maxCapacity : Nat) : Nat → Nat → Prop
  | enter (n : Nat) : (n : Rat) < target * maxCapacity →
      SchedStep target maxCapacity n (n + 1)
  | settle (n : Nat) : SchedStep target maxCapacity (n + 1) n

/-- In-flight counts reachable from an idle scheduler. -/
def SchedReach (target : Rat) (maxCapacity : Nat) (n : Nat) : Prop :=
  Relation.ReflTransGen (SchedStep target maxCapacity) 0 n

/-- The configured admission bound: 0.9 * 100 = 90. -/
theorem target_times_capacity_eq_90 :
    targetFraction * (maxRunners : Rat) = 90 := by
  norm_num [targetFraction, maxRunners]

/-- C5: with the configured target 0.9 (src/helpers/batch.py line 23) and
remote capacity max_runners = 100 (src/helpers/config.py line 9), every
reachable in-flight count satisfies `in_flight ≤ target * max_capacity = 90`,
and any step that admits a new chunk starts from `in_flight < target *
max_capacity`. -/
theorem admission_in_flight_bounded :
    (∀ n : Nat, SchedReach targetFraction maxRunners n → n ≤ 90) ∧
    (∀ n n' : Nat, SchedStep targetFraction maxRunners n n' → n < n' →
      (n : Rat) < targetFraction * (maxRunners : Rat) ∧ n' ≤ 90) := by
  have hb : targetFraction * (maxRunners : Rat) = 90 := target_times_capacity_eq_90
  have hstep : ∀ n n' : Nat, SchedStep targetFraction maxRunners n n' →
      n ≤ 90 → n' ≤ 90 := by
    intro n n' h hn
    cases h with
    | enter n hlt =>
        rw [hb] at hlt
        have : n < 90 := by exact_mod_cast hlt
        omega
    | settle m => omega
  refine ⟨fun n h => ?_, fun n n' h hlt => ?_⟩
  · induction h with
    | refl => omega
    | tail hmid hone ih => exact hstep _ _ hone ih
  · cases h with
    | enter n hlt2 =>
        refine ⟨hlt2, ?_⟩
        rw [hb] at hlt2
        have : n < 90 := by exact_mod_cast hlt2
        omega
    | settle m => omega

/-- C5 witness: the bound holds at the concrete reachable count 1, and the
admission step from 0 to 1 satisfies the admission guard. -/
theorem admission_in_flight_bounded_witness :
    (1 : Nat) ≤ 90 ∧
    ((0 : Nat) : Rat) < targetFraction * (maxRunners : Rat) ∧ (1 : Nat) ≤ 90 := by
  have h0 : ((0 : Nat) : Rat) < targetFraction * (maxRunners : Rat) := by
    norm_num [targetFraction, maxRunners]
  exact ⟨admission_in_flight_bounded.1 1
          (Relation.ReflTransGen.single (SchedStep.enter 0 h0)),
        admission_in_flight_bounded.2 0 1 (SchedStep.enter 0 h0) (by omega)⟩

/-!
## The chunk source (ChunkGenerator)

ChunkGenerator lives in src/helpers/chunk.py, which is not among the visible
sources; it is modelled from the spec.
-/

/-- Modelled from the spec: the ChunkGenerator (src/helpers/chunk.py, not
among the visible sources) lazily partitions the input records, in source
order, into at most `count` chunks of at most `size` records each; any input
beyond `size * count` records is dropped (the documented truncation policy). -/
def chunkGen (size : Nat) : Nat → List α → List (List α)
  | 0, _ => []
  | _ + 1, [] => []
  | c + 1, x :: xs =>
      (x :: xs).take size :: chunkGen size c ((x :: xs).drop size)

theorem chunkGen_join (size : Nat) :
    ∀ (c : Nat) (l : List α), (chunkGen size c l).flatten = l.take (size * c)
  | 0, l => by simp [chunkGen]
  | c + 1, [] => by simp [chunkGen]
  | c + 1, x :: xs => by
      rw [chunkGen, List.flatten_cons, chunkGen_join size c, ← List.take_add,
        Nat.mul_succ, Nat.add_comm (size * c) size]

/-- C6: for every input of records partitioned with chunk size `size` and
chunk count `count`, the concatenation of the emitted chunks is exactly the
first `min (number of records) (size * count)` records in source order: every
kept record appears exactly once, in order, and any remainder beyond
`size * count` is dropped. -/
theorem chunkGen_covers_first_min_records (size count : Nat) (l : List α) :
    (chunkGen size count l).flatten = l.take (min l.length (size * count)) := by
  rw [chunkGen_join]
  rcases le_total (size * count) l.length with h | h
  · rw [min_eq_right h]
  · rw [min_eq_left h, List.take_of_length_le h, List.take_of_length_le le_rfl]

/-!
## Source preparation (prepare_scenarios) and the main pipeline sequencing

prepare_scenarios is src/helpers/models.py lines 10-26; main is
src/main.py lines 12-49.
-/

/-- Suffix test on strings, used for the ".csv" filter of
src/helpers/models.py line 11 and the "_input.csv" glob of line 155,
implemented over the character lists so that it evaluates by decide. -/
def strHasSuffix (s suffix : String) : Bool :=
  decide (suffix.toList.length <= s.toList.length) &&
    (s.toList.drop (s.toList.length - suffix.toList.length) == suffix.toList)

/-- How the input directory presents itself to os.listdir: missing
(FileNotFoundError), unreadable (PermissionError), or present with the given
file names. -/
inductive DirAccess
  | missing
  | unreadable
  | present (files : List String)

/-- The OS errors os.listdir can raise. -/
inductive ListDirError
  | fileNotFound
  | permissionDenied
deriving DecidableEq

/-- prepare_scenarios (src/helpers/models.py lines 10-26): lists the input
directory (an OS error propagates); if no name ends with ".csv" it logs a
warning and returns None; otherwise it preprocesses the files and returns the
output directory.  The per-file preprocessing (lines 21-24) is abstracted as
returning the output directory marker. -/
def prepare_scenariosM (indir : DirAccess) : Except ListDirError (Option Unit) :=
  match indir with
  | DirAccess.missing => Except.error ListDirError.fileNotFound
  | DirAccess.unreadable => Except.error ListDirError.permissionDenied
  | DirAccess.present files =>
      let filenames := files.filter (fun f => strHasSuffix f ".csv")
      if filenames.isEmpty then Except.ok none
      else Except.ok (some ())

/-- How far main (src/main.py) gets relative to the start of remote work:
an exception from prepare_scenarios propagates out of main before step 2, so
the run aborts before any remote work; otherwise main proceeds to step 2,
run_batch, which creates the remote batch. -/
inductive MainProgress
  | abortedBeforeRemote (e : ListDirError)
  | reachedRemoteBatch
deriving DecidableEq

/-- Steps 1-2 of main (src/main.py lines 26-34): prepare_scenarios, then
run_batch.  main has no try/except, so a prepare_scenarios exception aborts
the pipeline; any non-exception return (including the zero-eligible-files
None) lets main continue into run_batch. -/
def mainThroughBatch (indir : DirAccess) : MainProgress :=
  match prepare_scenariosM indir with
  | Except.error e => MainProgress.abortedBeforeRemote e
  | Except.ok _ => MainProgress.reachedRemoteBatch

/-- C7, counterexample: with an input directory that exists but contains zero
eligible CSV files, prepare_scenarios merely logs a warning and returns None,
and main proceeds to run_batch, which starts remote work.  This refutes the
claim that the zero-eligible-files case is fatal and aborts before any remote
work starts. -/
theorem empty_input_dir_proceeds_to_remote :
    prepare_scenariosM (DirAccess.present ["readme.txt"]) = Except.ok none ∧
    mainThroughBatch (DirAccess.present ["readme.txt"]) =
      MainProgress.reachedRemoteBatch := by
  constructor <;> rfl

/-- C7, amended: if the input directory is missing or unreadable, the OS error
from os.listdir propagates out of prepare_scenarios and main, so the pipeline
aborts before any remote work starts; but if the directory exists and merely
contains zero eligible CSV files, prepare_scenarios logs a warning and returns
None, and the pipeline proceeds to start remote work. -/
theorem source_errors_abort_only_when_listing_fails :
    mainThroughBatch DirAccess.missing =
      MainProgress.abortedBeforeRemote ListDirError.fileNotFound ∧
    mainThroughBatch DirAccess.unreadable =
      MainProgress.abortedBeforeRemote ListDirError.permissionDenied ∧
    ∀ files : List String,
      (files.filter (fun f => strHasSuffix f ".csv")).isEmpty = true →
      mainThroughBatch (DirAccess.present files) =
        MainProgress.reachedRemoteBatch := by
  refine ⟨rfl, rfl, fun files h => ?_⟩
  simp only [mainThroughBatch, prepare_scenariosM, h, if_true]

/-- C7 witness: the amended theorem applied to a directory holding one
non-CSV file. -/
theorem source_errors_abort_only_when_listing_fails_witness :
    mainThroughBatch (DirAccess.present ["notes.txt"]) =
      MainProgress.reachedRemoteBatch :=
  source_errors_abort_only_when_listing_fails.2.2 ["notes.txt"] (by decide)

/-!
## The scenario result data model (src/helpers/models.py)

Output rows carry a JSON YearlyReport cell; float values are modelled as
exact rationals.
-/

/-- One input CSV row; only the Scenario column is consumed downstream
(aggregate.py line 35). -/
structure IRow where
  scenarioNum : Int
deriving DecidableEq

/-- One data row of a parsed YearlyReport: the Year, DB Top-Ups and
MB Top-Ups columns (models.py lines 43-53). -/
structure YRRow where
  year : Int
  db : Rat
  mb : Rat
deriving DecidableEq

/-- One row of an output CSV file: the JSON in its YearlyReport column either
parses to data rows or fails to parse (models.py lines 129-137). -/
inductive OCell
  | parsed (rows : List YRRow)
  | malformed
deriving DecidableEq

/-- models.py lines 130-137: a parse failure is replaced by the fallback
report with a header row only, hence zero data rows. -/
def parseReport : OCell → List YRRow
  | OCell.parsed rows => rows
  | OCell.malformed => []

/-- Content of one file of the output directory. -/
inductive Content
  | inputCsv (rows : List IRow)
  | outputCsv (cells : List OCell)
deriving DecidableEq

def Content.isInputCsv : Content → Bool
  | Content.inputCsv _ => true
  | _ => false

def Content.isOutputCsv : Content → Bool
  | Content.outputCsv _ => true
  | _ => false

/-- A directory: a list of (file name, content) entries. -/
abbrev Dir := List (String × Content)

/-- ScenarioResult (models.py lines 71-107). -/
structure ScenarioResult where
  uuid : String
  inputs : List IRow
  outputs : List (List YRRow)
deriving DecidableEq

/-- ScenarioResult.__init__ (models.py lines 74-89): stores the three fields
unconditionally and logs a warning exactly when the input and output counts
differ; it never raises.  The Bool records whether the warning was logged. -/
def ScenarioResult.construct (uuid : String) (inputs : List IRow)
    (outputs : List (List YRRow)) : ScenarioResult × Bool :=
  (⟨uuid, inputs, outputs⟩, inputs.length != outputs.length)

/-- Result of one ScenarioResult.__getitem__ access (models.py lines 100-107). -/
inductive GetResult
  | guarded
  | crashed
  | okPair (p : IRow × List YRRow)
deriving DecidableEq

/-- ScenarioResult.__getitem__ (models.py lines 100-107): the explicit guard
checks idx only against len(self.inputs) and raises the guarded IndexError;
past the guard, self.inputs.iloc[idx] is in range, but self.outputs[idx] can
still raise an unguarded IndexError (`crashed`). -/
def ScenarioResult.getItem (r : ScenarioResult) (idx : Int) : GetResult :=
  if idx < 0 ∨ (r.inputs.length : Int) ≤ idx then GetResult.guarded
  else
    match r.inputs[idx.toNat]?, r.outputs[idx.toNat]? with
    | some i, some o => GetResult.okPair (i, o)
    | _, _ => GetResult.crashed

/-- ScenarioResult.from_files (models.py lines 109-141) once the two files
are read: one YearlyReport per output row (a malformed cell becomes the
fallback empty report), combined by __init__. -/
def ScenarioResult.from_files (uuid : String) (inRows : List IRow)
    (outCells : List OCell) : ScenarioResult :=
  (ScenarioResult.construct uuid inRows (outCells.map parseReport)).1

theorem getItem_ok (r : ScenarioResult) (j : Nat) (a : IRow) (b : List YRRow)
    (ha : r.inputs[j]? = some a) (hb : r.outputs[j]? = some b) :
    r.getItem (j : Int) = GetResult.okPair (a, b) := by
  have hj : j < r.inputs.length := by
    by_contra h
    rw [List.getElem?_eq_none_iff.mpr (by omega)] at ha
    exact Option.noConfusion ha
  have hguard : ¬ ((j : Int) < 0 ∨ (r.inputs.length : Int) ≤ (j : Int)) := by
    push_neg
    exact ⟨Int.natCast_nonneg j, by exact_mod_cast hj⟩
  rw [ScenarioResult.getItem, if_neg hguard, Int.toNat_natCast, ha, hb]

/-- C10: ScenarioResult construction never fails on a count mismatch (it only
logs a warning, recorded by the Bool of construct); the guarded IndexError of
__getitem__ fires exactly when idx is negative or at least len(inputs); and
whenever there are fewer outputs than inputs, the index len(outputs) passes
the guard and then crashes on self.outputs[idx]. -/
theorem getitem_guard_and_crash :
    (∀ (uuid : String) (i : List IRow) (o : List (List YRRow)),
      (ScenarioResult.construct uuid i o).1 = ⟨uuid, i, o⟩ ∧
      ((ScenarioResult.construct uuid i o).2 = true ↔ i.length ≠ o.length)) ∧
    (∀ (r : ScenarioResult) (idx : Int),
      r.getItem idx = GetResult.guarded ↔
        (idx < 0 ∨ (r.inputs.length : Int) ≤ idx)) ∧
    (∀ r : ScenarioResult, r.outputs.length < r.inputs.length →
      (0 : Int) ≤ (r.outputs.length : Int) ∧
      (r.outputs.length : Int) < (r.inputs.length : Int) ∧
      r.getItem (r.outputs.length : Int) = GetResult.crashed) := by
  refine ⟨fun uuid i o => ⟨rfl, bne_iff_ne.trans Iff.rfl⟩, fun r idx => ?_, fun r h => ?_⟩
  · constructor
    · intro hg
      by_contra hn
      rw [ScenarioResult.getItem, if_neg hn] at hg
      revert hg
      split <;> intro hg <;> exact GetResult.noConfusion hg
    · intro hn
      rw [ScenarioResult.getItem, if_pos hn]
  · have hguard : ¬ ((r.outputs.length : Int) < 0 ∨
        (r.inputs.length : Int) ≤ (r.outputs.length : Int)) := by
      push_neg
      exact ⟨Int.natCast_nonneg _, by exact_mod_cast h⟩
    refine ⟨Int.natCast_nonneg _, by exact_mod_cast h, ?_⟩
    rw [ScenarioResult.getItem, if_neg hguard, Int.toNat_natCast,
      List.getElem?_eq_none_iff.mpr le_rfl]
    split
    · rename_i heq
      exact Option.noConfusion heq
    · rfl

/-- C10 witness: for the concrete result with one input row and no outputs,
index 0 passes the guard and crashes on the missing output. -/
theorem getitem_guard_and_crash_witness :
    (0 : Int) ≤ ((0 : Nat) : Int) ∧
    ((0 : Nat) : Int) < ((1 : Nat) : Int) ∧
    ScenarioResult.getItem ⟨"u", [⟨1⟩], []⟩ (((0 : Nat) : Int)) = GetResult.crashed := by
  exact getitem_guard_and_crash.2.2 ⟨"u", [⟨1⟩], []⟩ (by decide)

/-!
## Reading paired files from the output directory (from_directory)
-/

/-- Python str.replace for the fixed pattern: removes every occurrence of the
pattern from the character list, scanning left to right without overlap
(Path(input_path).stem.replace in models.py lines 122 and 158).  The fuel
argument makes the recursion structural; fuel = length of the list always
suffices since every step consumes at least one character. -/
def removeAllAux (pat : List Char) : Nat → List Char → List Char
  | 0, l => l
  | _ + 1, [] => []
  | fuel + 1, c :: cs =>
      if (c :: cs).take pat.length == pat then
        removeAllAux pat fuel ((c :: cs).drop pat.length)
      else
        c :: removeAllAux pat fuel cs

/-- Path(name).stem for a ".csv" file, then stem.replace removing every
occurrence of the marker "_input" (models.py lines 122 and 158). -/
def uuidOfInputName (name : String) : String :=
  let stem := name.toList.take (name.toList.length - 4)
  String.mk (removeAllAux "_input".toList stem.length stem)

/-- File lookup by name, modelling output_file.exists() plus the read
(models.py lines 159-166); directory entries have unique names on a real
file system, and the first match is taken. -/
def findFile : Dir → String → Option Content
  | [], _ => none
  | (n, c) :: rest, name => if n = name then some c else findFile rest name

/-- Reading the paired files for from_files (models.py lines 124-127): if
either file does not read back as the expected CSV shape, the exception is
caught by from_directory (lines 168-170) and the pair is skipped. -/
def from_filesRead (uuid : String) : Content → Content → Option ScenarioResult
  | Content.inputCsv inRows, Content.outputCsv outCells =>
      some (ScenarioResult.from_files uuid inRows outCells)
  | _, _ => none

/-- The entries whose names match the glob *_input.csv (models.py line 155). -/
def inputEntries (dir : Dir) : Dir :=
  dir.filter (fun e => strHasSuffix e.1 "_input.csv")

def nameLe (a b : String × Content) : Prop := a.1 ≤ b.1

instance : DecidableRel nameLe := fun a b => inferInstanceAs (Decidable (a.1 ≤ b.1))

/-- sorted(dir_path.glob("*_input.csv")) (models.py line 155): the matching
entries in name order (insertion sort is stable, like Python sorted). -/
def sortedInputEntries (dir : Dir) : Dir :=
  List.insertionSort nameLe (inputEntries dir)

/-- The body of the from_directory loop for one input entry (models.py lines
157-170): derive the uuid, look for the sibling output file, skip when it is
absent, otherwise read both files, skipping on a read error. -/
def directoryStep (dir : Dir) (e : String × Content) : Option ScenarioResult :=
  match findFile dir (uuidOfInputName e.1 ++ "_output.csv") with
  | none => none
  | some oc => from_filesRead (uuidOfInputName e.1) e.2 oc

/-- ScenarioResult.from_directory (models.py lines 143-173). -/
def ScenarioResult.from_directory (dir : Dir) : List ScenarioResult :=
  (sortedInputEntries dir).filterMap (directoryStep dir)

/-- Whether the sibling output file of an input entry exists
(models.py lines 159-163). -/
def hasSibling (dir : Dir) (e : String × Content) : Bool :=
  (findFile dir (uuidOfInputName e.1 ++ "_output.csv")).isSome

/-- Every file named like an input CSV reads back as input rows, and every
file named like an output CSV as output cells (the reads succeed). -/
def WellTypedDir (dir : Dir) : Bool :=
  dir.all (fun e =>
    (!(strHasSuffix e.1 "_input.csv") || e.2.isInputCsv) &&
    (!(strHasSuffix e.1 "_output.csv") || e.2.isOutputCsv))

theorem strHasSuffix_append (u s : String) : strHasSuffix (u ++ s) s = true := by
  have h : (u ++ s).toList = u.toList ++ s.toList := rfl
  simp only [strHasSuffix, h, List.length_append, Bool.and_eq_true, decide_eq_true_eq]
  constructor
  · omega
  · have h2 : u.toList.length + s.toList.length - s.toList.length = u.toList.length := by
      omega
    rw [h2, List.drop_left, beq_self_eq_true]

theorem findFile_mem {name : String} {c : Content} :
    ∀ {dir : Dir}, findFile dir name = some c → (name, c) ∈ dir := by
  intro dir
  induction dir with
  | nil => intro h; exact Option.noConfusion h
  | cons e rest ih =>
      intro h
      obtain ⟨n, c0⟩ := e
      rw [findFile] at h
      by_cases hn : n = name
      · rw [if_pos hn] at h
        injection h with h2
        subst hn
        subst h2
        exact List.mem_cons_self _ _
      · rw [if_neg hn] at h
        exact List.mem_cons_of_mem _ (ih h)

theorem wellTyped_input {dir : Dir} (h : WellTypedDir dir = true)
    {e : String × Content} (he : e ∈ dir)
    (hn : strHasSuffix e.1 "_input.csv" = true) :
    ∃ rows, e.2 = Content.inputCsv rows := by
  have hall := List.all_eq_true.mp h e he
  rw [hn] at hall
  cases hc : e.2 with
  | inputCsv rows => exact ⟨rows, rfl⟩
  | outputCsv cells =>
      rw [hc] at hall
      simp [Content.isInputCsv] at hall

theorem wellTyped_output {dir : Dir} (h : WellTypedDir dir = true)
    {e : String × Content} (he : e ∈ dir)
    (hn : strHasSuffix e.1 "_output.csv" = true) :
    ∃ cells, e.2 = Content.outputCsv cells := by
  have hall := List.all_eq_true.mp h e he
  rw [hn] at hall
  cases hc : e.2 with
  | outputCsv cells => exact ⟨cells, rfl⟩
  | inputCsv rows =>
      rw [hc] at hall
      simp [Content.isOutputCsv] at hall

theorem length_filterMap_eq_length_filter {α β : Type _} (f : α → Option β)
    (l : List α) :
    (l.filterMap f).length = (l.filter (fun a => (f a).isSome)).length := by
  induction l with
  | nil => rfl
  | cons a l ih =>
      cases hf : f a <;>
        simp [List.filterMap_cons, List.filter_cons, hf, ih]

theorem directoryStep_isSome {dir : Dir} (hwt : WellTypedDir dir = true)
    {e : String × Content} (he : e ∈ dir)
    (hn : strHasSuffix e.1 "_input.csv" = true) :
    (directoryStep dir e).isSome = hasSibling dir e := by
  rw [directoryStep, hasSibling]
  cases hf : findFile dir (uuidOfInputName e.1 ++ "_output.csv") with
  | none => rfl
  | some oc =>
      obtain ⟨cells, hcells⟩ :=
        wellTyped_output hwt (findFile_mem hf) (strHasSuffix_append _ _)
      have hoc : oc = Content.outputCsv cells := hcells
      obtain ⟨rows, hrows⟩ := wellTyped_input hwt he hn
      subst hoc
      show (from_filesRead (uuidOfInputName e.1) e.2 (Content.outputCsv cells)).isSome = true
      rw [hrows]
      rfl

/-- C8, counterexample: in a directory pairing an input file with zero rows
with an output file with one row, from_directory returns that result; it has
one YearlyReport but zero input rows, so the single output-file row yields a
report that is paired with no input row (any access result[idx] hits the
guard).  This refutes the part of the claim stating that every output-file
row yields a YearlyReport paired positionally with an input row. -/
theorem from_directory_unpaired_output_row :
    ScenarioResult.from_directory
        [("a_input.csv", Content.inputCsv []),
         ("a_output.csv", Content.outputCsv [OCell.parsed []])] =
      [⟨"a", [], [[]]⟩] ∧
    (⟨"a", [], [[]]⟩ : ScenarioResult).outputs.length = 1 ∧
    (⟨"a", [], [[]]⟩ : ScenarioResult).inputs.length = 0 ∧
    (⟨"a", [], [[]]⟩ : ScenarioResult).getItem 0 = GetResult.guarded := by
  refine ⟨?_, rfl, rfl, rfl⟩
  rfl

/-- C8, amended: over a directory whose files read back successfully,
from_directory returns exactly one ScenarioResult per *_input.csv entry whose
sibling <identifier>_output.csv exists (input entries without a sibling are
skipped); each returned result carries the shared identifier as its uuid,
its inputs are the rows of the input file, and it holds exactly one
YearlyReport per output-file row; and for every index within both row
ranges, result[idx] pairs input row idx with report idx positionally.  (When
the output file has more rows than the input file the extra reports are
reachable through no index, which is what the counterexample exhibits.) -/
theorem from_directory_pairs_inputs_outputs (dir : Dir)
    (hwt : WellTypedDir dir = true) :
    (ScenarioResult.from_directory dir).length =
      ((inputEntries dir).filter (hasSibling dir)).length ∧
    (∀ r ∈ ScenarioResult.from_directory dir,
      ∃ e ∈ inputEntries dir,
        r.uuid = uuidOfInputName e.1 ∧
        (∃ inRows, e.2 = Content.inputCsv inRows ∧ r.inputs = inRows) ∧
        (∃ outCells,
          findFile dir (r.uuid ++ "_output.csv") =
            some (Content.outputCsv outCells) ∧
          r.outputs = outCells.map parseReport)) ∧
    (∀ r ∈ ScenarioResult.from_directory dir,
      ∀ (j : Nat) (a : IRow) (b : List YRRow),
        r.inputs[j]? = some a → r.outputs[j]? = some b →
        r.getItem (j : Int) = GetResult.okPair (a, b)) := by
  have hperm := List.perm_insertionSort nameLe (inputEntries dir)
  have hmemin : ∀ e ∈ sortedInputEntries dir,
      e ∈ dir ∧ strHasSuffix e.1 "_input.csv" = true := by
    intro e he
    have hin : e ∈ inputEntries dir := hperm.subset he
    have := List.mem_filter.mp hin
    exact ⟨this.1, this.2⟩
  refine ⟨?_, ?_, ?_⟩
  · rw [ScenarioResult.from_directory, length_filterMap_eq_length_filter]
    rw [List.filter_congr (fun e he =>
      directoryStep_isSome hwt (hmemin e he).1 (hmemin e he).2)]
    exact (hperm.filter (hasSibling dir)).length_eq
  · intro r hr
    rw [ScenarioResult.from_directory] at hr
    obtain ⟨e, he, hfe⟩ := List.mem_filterMap.mp hr
    refine ⟨e, hperm.subset he, ?_⟩
    obtain ⟨hedir, hesuf⟩ := hmemin e he
    rw [directoryStep] at hfe
    cases hf : findFile dir (uuidOfInputName e.1 ++ "_output.csv") with
    | none => rw [hf] at hfe; exact Option.noConfusion hfe
    | some oc =>
        rw [hf] at hfe
        obtain ⟨cells, hcells⟩ :=
          wellTyped_output hwt (findFile_mem hf) (strHasSuffix_append _ _)
        have hoc : oc = Content.outputCsv cells := hcells
        obtain ⟨rows, hrows⟩ := wellTyped_input hwt hedir hesuf
        subst hoc
        have hfe2 : from_filesRead (uuidOfInputName e.1) e.2
            (Content.outputCsv cells) = some r := hfe
        rw [hrows, from_filesRead] at hfe2
        injection hfe2 with hfe3
        subst hfe3
        exact ⟨rfl, ⟨rows, hrows, rfl⟩, ⟨cells, hf, rfl⟩⟩
  · intro r hr j a b ha hb
    exact getItem_ok r j a b ha hb

/-- C8 witness: the amended theorem applied to a concrete well-typed
directory with one matched input/output pair and one input entry without a
sibling output file. -/
theorem from_directory_pairs_inputs_outputs_witness :
    (ScenarioResult.from_directory
        [("b_input.csv", Content.inputCsv [⟨7⟩]),
         ("b_output.csv", Content.outputCsv [OCell.parsed [⟨1, 2, 3⟩]]),
         ("c_input.csv", Content.inputCsv [])]).length =
      ((inputEntries
          [("b_input.csv", Content.inputCsv [⟨7⟩]),
           ("b_output.csv", Content.outputCsv [OCell.parsed [⟨1, 2, 3⟩]]),
           ("c_input.csv", Content.inputCsv [])]).filter
        (hasSibling
          [("b_input.csv", Content.inputCsv [⟨7⟩]),
           ("b_output.csv", Content.outputCsv [OCell.parsed [⟨1, 2, 3⟩]]),
           ("c_input.csv", Content.inputCsv [])])).length :=
  (from_directory_pairs_inputs_outputs
    [("b_input.csv", Content.inputCsv [⟨7⟩]),
     ("b_output.csv", Content.outputCsv [OCell.parsed [⟨1, 2, 3⟩]]),
     ("c_input.csv", Content.inputCsv [])] (by decide)).1

/-!
## Scenario aggregation and ranking (src/helpers/aggregate.py)
-/

/-- The combined DB + MB Top-Ups total of one report
(aggregate.py lines 39-43). -/
def reportTotal (rep : List YRRow) : Rat :=
  (rep.map (fun row => row.db)).sum + (rep.map (fun row => row.mb)).sum

/-- scenario_totals[scenario] += combined (aggregate.py lines 24 and 44):
a Python dict modelled as an insertion-ordered association list. -/
def addTotal (acc : List (Int × Rat)) (key : Int) (v : Rat) : List (Int × Rat) :=
  match acc with
  | [] => [(key, v)]
  | (k, t) :: rest =>
      if k = key then (k, t + v) :: rest else (k, t) :: addTotal rest key v

/-- The exceptions the aggregation can raise: the IndexError from
result[idx] (models.py line 106) and the KeyError from sort_values on a
column-less empty DataFrame (aggregate.py line 59). -/
inductive AggError
  | indexErr
  | keyErr
deriving DecidableEq

/-- The accesses result[idx] for idx in range(len(result)) (aggregate.py
lines 33-34): each goes through ScenarioResult.__getitem__, and an
IndexError propagates. -/
def collectPairs (r : ScenarioResult) :
    List Nat → Except AggError (List (IRow × List YRRow))
  | [] => Except.ok []
  | i :: is =>
      match r.getItem (i : Int) with
      | GetResult.okPair p =>
          match collectPairs r is with
          | Except.ok ps => Except.ok (p :: ps)
          | Except.error err => Except.error err
      | _ => Except.error AggError.indexErr

def scenarioPairs (r : ScenarioResult) :
    Except AggError (List (IRow × List YRRow)) :=
  collectPairs r (List.range r.inputs.length)

/-- One result folded into the totals dict (aggregate.py lines 29-49). -/
def foldResult (acc : List (Int × Rat)) (ps : List (IRow × List YRRow)) :
    List (Int × Rat) :=
  ps.foldl (fun acc p => addTotal acc p.1.scenarioNum (reportTotal p.2)) acc

/-- The loop over all results (aggregate.py lines 29-49), accumulating the
totals dict. -/
def totalsAux (acc : List (Int × Rat)) :
    List ScenarioResult → Except AggError (List (Int × Rat))
  | [] => Except.ok acc
  | r :: rs =>
      match scenarioPairs r with
      | Except.error err => Except.error err
      | Except.ok ps => totalsAux (foldResult acc ps) rs

def scenKeyLe (a b : Int × Rat) : Prop := a.1 ≤ b.1

instance : DecidableRel scenKeyLe :=
  fun a b => inferInstanceAs (Decidable (a.1 ≤ b.1))

def totalLe (a b : Int × Rat) : Prop := a.2 ≤ b.2

instance : DecidableRel totalLe :=
  fun a b => inferInstanceAs (Decidable (a.2 ≤ b.2))

instance : IsTotal (Int × Rat) totalLe := ⟨fun a b => le_total a.2 b.2⟩

instance : IsTrans (Int × Rat) totalLe := ⟨fun _ _ _ h1 h2 => le_trans h1 h2⟩

/-- aggregate_scenario_results (aggregate.py lines 13-60): folds the
per-scenario totals over all results, then builds the ranking DataFrame and
sorts it by scenario key (line 59).  When no scenario was seen the frame
pd.DataFrame([]) has no columns, and sort_values("Scenario") raises a
KeyError. -/
def aggregate_scenario_resultsM (results : List ScenarioResult) :
    Except AggError (List (Int × Rat)) :=
  match totalsAux [] results with
  | Except.error err => Except.error err
  | Except.ok totals =>
      if totals.isEmpty then Except.error AggError.keyErr
      else Except.ok (List.insertionSort scenKeyLe totals)

/-- One row of the final ranking frame (aggregate.py lines 344-353). -/
structure RankRow where
  scenarioNum : Int
  total : Rat
  rank : Nat
  winner : Bool
deriving DecidableEq

/-- Rank assignment and winner marking (aggregate.py lines 347-353): ranks
r, r+1, ... down the sorted order, Winner exactly when Rank is at most k. -/
def rankRows (k : Nat) : Nat → List (Int × Rat) → List RankRow
  | _, [] => []
  | r, (s, t) :: rest => ⟨s, t, r, decide (r ≤ k)⟩ :: rankRows k (r + 1) rest

/-- The observable outcome of run_aggregate. -/
inductive AggOutcome
  | earlyReturn
  | failed (e : AggError)
  | ranked (rows : List RankRow)
deriving DecidableEq

/-- run_aggregate (aggregate.py lines 312-388): early return when the result
list is empty (line 334); otherwise aggregate, sort ascending by the DB+MB
total (line 344, ties in an unspecified order), assign ranks 1..n (line 347)
and mark the top max(1, int(n * 0.2)) rows as winners (lines 350-353).  For
the list lengths arising here, int(n * 0.2) in IEEE double arithmetic equals
n / 5 rounded down: the double nearest to 0.2 lies just above 1/5, so the
product lies just above n/5 and is never rounded past the next integer. -/
def run_aggregateM (results : List ScenarioResult) : AggOutcome :=
  if results.isEmpty then AggOutcome.earlyReturn
  else
    match aggregate_scenario_resultsM results with
    | Except.error err => AggOutcome.failed err
    | Except.ok totals =>
        let sorted := List.insertionSort totalLe totals
        let k := max 1 (sorted.length / 5)
        AggOutcome.ranked (rankRows k 1 sorted)

/-- Appends a key when not already present: the effect of one dict update on
the ordered key list. -/
def insertNew (ks : List Int) (k : Int) : List Int :=
  if k ∈ ks then ks else ks ++ [k]

/-- The distinct scenario keys appearing in the input rows of the results,
in first-appearance order: the key set of the totals dict. -/
def distinctScenarioKeys (results : List ScenarioResult) : List Int :=
  results.foldl
    (fun ks r => (r.inputs.map (fun row => row.scenarioNum)).foldl insertNew ks) []

/-- C9, counterexample: for the non-empty result list holding one result with
one input row and zero output reports, the access result[0] inside
aggregate_scenario_results raises an IndexError, so run_aggregate crashes
and marks no winners at all, while the claim requires exactly
max(1, floor(0.2 * 1)) = 1 winner for this list.  This refutes the claim as
stated over every non-empty list of scenario results. -/
theorem run_aggregate_crashes_on_short_outputs :
    run_aggregateM [⟨"w", [⟨3⟩], []⟩] = AggOutcome.failed AggError.indexErr := by
  rfl

theorem addTotal_keys (acc : List (Int × Rat)) (key : Int) (v : Rat) :
    (addTotal acc key v).map Prod.fst = insertNew (acc.map Prod.fst) key := by
  induction acc with
  | nil => simp [addTotal, insertNew]
  | cons e rest ih =>
      obtain ⟨k, t⟩ := e
      by_cases hk : k = key
      · subst hk
        simp [addTotal, insertNew]
      · simp only [addTotal, if_neg hk, List.map_cons, ih, insertNew]
        by_cases hmem : key ∈ rest.map Prod.fst
        · rw [if_pos hmem, if_pos (List.mem_cons_of_mem _ hmem)]
        · rw [if_neg hmem, if_neg ?hnc]
          · simp
          case hnc =>
            intro hc
            rcases List.mem_cons.mp hc with h1 | h1
            · exact hk h1.symm
            · exact hmem h1

theorem foldResult_keys (ps : List (IRow × List YRRow)) :
    ∀ acc : List (Int × Rat),
      (foldResult acc ps).map Prod.fst =
        (ps.map (fun p => p.1.scenarioNum)).foldl insertNew (acc.map Prod.fst) := by
  induction ps with
  | nil => intro acc; rfl
  | cons p ps ih =>
      intro acc
      show (foldResult (addTotal acc p.1.scenarioNum (reportTotal p.2)) ps).map Prod.fst = _
      rw [ih, addTotal_keys, List.map_cons, List.foldl_cons]

theorem collectPairs_range' (r : ScenarioResult)
    (hw : r.inputs.length ≤ r.outputs.length) :
    ∀ (b a : Nat), a + b = r.inputs.length →
      collectPairs r (List.range' a b) =
        Except.ok ((r.inputs.drop a).zip (r.outputs.drop a)) := by
  intro b
  induction b with
  | zero =>
      intro a ha
      have h0 : a = r.inputs.length := by omega
      subst h0
      rw [List.range', collectPairs, List.drop_length]
      rfl
  | succ b ih =>
      intro a ha
      have hlt : a < r.inputs.length := by omega
      have hlt2 : a < r.outputs.length := by omega
      have hga : r.getItem (a : Int) =
          GetResult.okPair (r.inputs[a], r.outputs[a]) :=
        getItem_ok r a _ _ (List.getElem?_eq_getElem hlt)
          (List.getElem?_eq_getElem hlt2)
      rw [List.range', collectPairs, hga, ih (a + 1) (by omega),
        List.drop_eq_getElem_cons hlt, List.drop_eq_getElem_cons hlt2,
        List.zip_cons_cons]

theorem scenarioPairs_ok (r : ScenarioResult)
    (hw : r.inputs.length ≤ r.outputs.length) :
    scenarioPairs r = Except.ok (r.inputs.zip r.outputs) := by
  rw [scenarioPairs, List.range_eq_range']
  have h := collectPairs_range' r hw r.inputs.length 0 (by omega)
  simpa using h

theorem zip_pair_keys (r : ScenarioResult)
    (hw : r.inputs.length ≤ r.outputs.length) :
    (r.inputs.zip r.outputs).map (fun p => p.1.scenarioNum) =
      r.inputs.map (fun row => row.scenarioNum) := by
  have h1 := List.map_fst_zip r.inputs r.outputs hw
  calc (r.inputs.zip r.outputs).map (fun p => p.1.scenarioNum)
      = ((r.inputs.zip r.outputs).map Prod.fst).map
          (fun row => row.scenarioNum) := by rw [List.map_map]; rfl
    _ = r.inputs.map (fun row => row.scenarioNum) := by rw [h1]

theorem totalsAux_ok :
    ∀ results : List ScenarioResult,
      (∀ r ∈ results, r.inputs.length ≤ r.outputs.length) →
      ∀ acc : List (Int × Rat),
        ∃ totals, totalsAux acc results = Except.ok totals ∧
          totals.map Prod.fst =
            results.foldl
              (fun ks r =>
                (r.inputs.map (fun row => row.scenarioNum)).foldl insertNew ks)
              (acc.map Prod.fst) := by
  intro results
  induction results with
  | nil => intro _ acc; exact ⟨acc, rfl, rfl⟩
  | cons r rs ih =>
      intro hw acc
      have hr := hw r (List.mem_cons_self _ _)
      have hrs : ∀ x ∈ rs, x.inputs.length ≤ x.outputs.length :=
        fun x hx => hw x (List.mem_cons_of_mem _ hx)
      obtain ⟨totals, h1, h2⟩ := ih hrs (foldResult acc (r.inputs.zip r.outputs))
      refine ⟨totals, ?_, ?_⟩
      · rw [totalsAux, scenarioPairs_ok r hr]
        exact h1
      · rw [h2, foldResult_keys, zip_pair_keys r hr, List.foldl_cons]

theorem insertNew_ne_nil (ks : List Int) (k : Int) : insertNew ks k ≠ [] := by
  rw [insertNew]
  split
  · rename_i hmem
    exact List.ne_nil_of_mem hmem
  · simp

theorem foldl_insertNew_ne_nil (l : List Int) :
    ∀ ks : List Int, ks ≠ [] ∨ l ≠ [] → l.foldl insertNew ks ≠ [] := by
  induction l with
  | nil =>
      intro ks h
      rcases h with h | h
      · exact h
      · exact absurd rfl h
  | cons a l ih =>
      intro ks _
      rw [List.foldl_cons]
      exact ih _ (Or.inl (insertNew_ne_nil ks a))

theorem distinct_fold_ne_nil :
    ∀ results : List ScenarioResult, ∀ ks : List Int,
      ks ≠ [] ∨ (∃ r ∈ results, r.inputs ≠ []) →
      results.foldl
        (fun ks r =>
          (r.inputs.map (fun row => row.scenarioNum)).foldl insertNew ks) ks ≠ [] := by
  intro results
  induction results with
  | nil =>
      intro ks h
      rcases h with h | ⟨r, hr, _⟩
      · exact h
      · exact absurd hr (List.not_mem_nil r)
  | cons r rs ih =>
      intro ks h
      rw [List.foldl_cons]
      rcases h with h | ⟨x, hx, hne⟩
      · exact ih _ (Or.inl (foldl_insertNew_ne_nil _ ks (Or.inl h)))
      · rcases List.mem_cons.mp hx with h1 | h2
        · subst h1
          have hmap : x.inputs.map (fun row => row.scenarioNum) ≠ [] := by
            simpa using hne
          exact ih _ (Or.inl (foldl_insertNew_ne_nil _ ks (Or.inr hmap)))
        · exact ih _ (Or.inr ⟨x, h2, hne⟩)

theorem insertNew_nodup {ks : List Int} (h : ks.Nodup) (k : Int) :
    (insertNew ks k).Nodup := by
  rw [insertNew]
  split
  · exact h
  · rename_i hnm
    simp [List.nodup_append, h, hnm]

theorem foldl_insertNew_nodup (l : List Int) :
    ∀ ks : List Int, ks.Nodup → (l.foldl insertNew ks).Nodup := by
  induction l with
  | nil => intro ks h; exact h
  | cons a l ih => intro ks h; exact ih _ (insertNew_nodup h a)

theorem distinct_fold_nodup :
    ∀ results : List ScenarioResult, ∀ ks : List Int, ks.Nodup →
      (results.foldl
        (fun ks r =>
          (r.inputs.map (fun row => row.scenarioNum)).foldl insertNew ks) ks).Nodup := by
  intro results
  induction results with
  | nil => intro ks h; exact h
  | cons r rs ih =>
      intro ks h
      rw [List.foldl_cons]
      exact ih _ (foldl_insertNew_nodup _ ks h)

theorem rankRows_length (k : Nat) :
    ∀ (l : List (Int × Rat)) (r : Nat), (rankRows k r l).length = l.length := by
  intro l
  induction l with
  | nil => intro r; rfl
  | cons e rest ih =>
      intro r
      obtain ⟨s, t⟩ := e
      rw [rankRows]
      simp [ih]

theorem rankRows_winner_count (k : Nat) :
    ∀ (l : List (Int × Rat)) (r : Nat),
      ((rankRows k r l).filter (fun row => row.winner)).length =
        min (k + 1 - r) l.length := by
  intro l
  induction l with
  | nil => intro r; simp [rankRows]
  | cons e rest ih =>
      intro r
      obtain ⟨s, t⟩ := e
      rw [rankRows, List.filter_cons]
      by_cases hr : r ≤ k
      · rw [if_pos (by simpa using hr)]
        simp only [List.length_cons, ih (r + 1)]
        omega
      · rw [if_neg (by simpa using hr)]
        rw [ih (r + 1)]
        simp only [List.length_cons]
        omega

theorem rankRows_winner_iff (k : Nat) :
    ∀ (l : List (Int × Rat)) (r : Nat) (row : RankRow),
      row ∈ rankRows k r l → (row.winner = true ↔ row.rank ≤ k) := by
  intro l
  induction l with
  | nil => intro r row h; exact absurd h (List.not_mem_nil row)
  | cons e rest ih =>
      intro r row h
      obtain ⟨s, t⟩ := e
      rw [rankRows] at h
      rcases List.mem_cons.mp h with h1 | h2
      · subst h1
        simp
      · exact ih (r + 1) row h2

theorem rankRows_rank_eq (k : Nat) :
    ∀ (l : List (Int × Rat)) (r i : Nat) (row : RankRow),
      (rankRows k r l)[i]? = some row → row.rank = r + i := by
  intro l
  induction l with
  | nil =>
      intro r i row h
      have h0 : rankRows k r ([] : List (Int × Rat)) = [] := rfl
      rw [h0] at h
      simp at h
  | cons e rest ih =>
      intro r i row h
      obtain ⟨s, t⟩ := e
      have hcons : rankRows k r ((s, t) :: rest) =
          ⟨s, t, r, decide (r ≤ k)⟩ :: rankRows k (r + 1) rest := rfl
      rw [hcons] at h
      cases i with
      | zero =>
          rw [List.getElem?_cons_zero] at h
          injection h with h2
          subst h2
          simp
      | succ i =>
          rw [List.getElem?_cons_succ] at h
          have := ih (r + 1) i row h
          omega

theorem rankRows_totals_map (k : Nat) :
    ∀ (l : List (Int × Rat)) (r : Nat),
      (rankRows k r l).map (fun row => (row.scenarioNum, row.total)) = l := by
  intro l
  induction l with
  | nil => intro r; rfl
  | cons e rest ih =>
      intro r
      obtain ⟨s, t⟩ := e
      rw [rankRows]
      simp [ih]

/-- C9, amended: for every non-empty list of scenario results in which every
result has at least as many output reports as input rows (so no result[idx]
access crashes) and at least one input row exists overall, run_aggregate
produces a ranking whose rows carry exactly the distinct scenario keys
(n of them, without duplicates), ranked 1..n in ascending order of DB+MB
total, and marks as Winner exactly the rows with Rank at most
max(1, floor(0.2 * n)), which is exactly max(1, floor(0.2 * n)) rows. -/
theorem run_aggregate_winner_count (results : List ScenarioResult)
    (hne : results ≠ [])
    (hw : ∀ r ∈ results, r.inputs.length ≤ r.outputs.length)
    (hrow : ∃ r ∈ results, r.inputs ≠ []) :
    ∃ rows : List RankRow,
      run_aggregateM results = AggOutcome.ranked rows ∧
      rows.length = (distinctScenarioKeys results).length ∧
      (rows.map (fun row => row.scenarioNum)).Perm (distinctScenarioKeys results) ∧
      (rows.map (fun row => row.scenarioNum)).Nodup ∧
      (rows.filter (fun row => row.winner)).length =
        max 1 ((distinctScenarioKeys results).length / 5) ∧
      (∀ row ∈ rows,
        row.winner = true ↔
          row.rank ≤ max 1 ((distinctScenarioKeys results).length / 5)) ∧
      List.Pairwise (fun a b : RankRow => a.total ≤ b.total) rows ∧
      (∀ (i : Nat) (row : RankRow), rows[i]? = some row → row.rank = i + 1) := by
  obtain ⟨raw, hraw, hkeys⟩ := totalsAux_ok results hw []
  have hkeys2 : raw.map Prod.fst = distinctScenarioKeys results := hkeys
  have hdk_ne : distinctScenarioKeys results ≠ [] :=
    distinct_fold_ne_nil results [] (Or.inr hrow)
  have hraw_ne : raw ≠ [] := by
    intro h0
    rw [← hkeys2, h0] at hdk_ne
    exact hdk_ne rfl
  have hraw_empty : raw.isEmpty = false := by
    cases raw with
    | nil => exact absurd rfl hraw_ne
    | cons a l => rfl
  have hres_empty : results.isEmpty = false := by
    cases results with
    | nil => exact absurd rfl hne
    | cons a l => rfl
  have hagg : aggregate_scenario_resultsM results =
      Except.ok (List.insertionSort scenKeyLe raw) := by
    rw [aggregate_scenario_resultsM, hraw]
    show (if raw.isEmpty = true then Except.error AggError.keyErr
      else Except.ok (List.insertionSort scenKeyLe raw)) = _
    rw [hraw_empty]
    rfl
  set totals := List.insertionSort scenKeyLe raw with htot
  set sorted := List.insertionSort totalLe totals with hsort
  set k := max 1 (sorted.length / 5) with hk
  have hrun : run_aggregateM results = AggOutcome.ranked (rankRows k 1 sorted) := by
    rw [run_aggregateM, hres_empty]
    simp only [Bool.false_eq_true, if_false]
    rw [hagg]
  have hlensorted : sorted.length = raw.length := by
    rw [hsort, (List.perm_insertionSort totalLe totals).length_eq, htot,
      (List.perm_insertionSort scenKeyLe raw).length_eq]
  have hnlen : (distinctScenarioKeys results).length = raw.length := by
    rw [← hkeys2, List.length_map]
  have hmapkeys : (rankRows k 1 sorted).map (fun row => row.scenarioNum) =
      sorted.map Prod.fst := by
    have h1 := rankRows_totals_map k sorted 1
    calc (rankRows k 1 sorted).map (fun row => row.scenarioNum)
        = ((rankRows k 1 sorted).map
            (fun row => (row.scenarioNum, row.total))).map Prod.fst := by
          rw [List.map_map]; rfl
      _ = sorted.map Prod.fst := by rw [h1]
  have hpermkeys : ((rankRows k 1 sorted).map (fun row => row.scenarioNum)).Perm
      (distinctScenarioKeys results) := by
    rw [hmapkeys]
    have p1 := (List.perm_insertionSort totalLe totals).map Prod.fst
    have p2 := (List.perm_insertionSort scenKeyLe raw).map Prod.fst
    rw [hkeys2] at p2
    exact p1.trans p2
  have hdknodup : (distinctScenarioKeys results).Nodup :=
    distinct_fold_nodup results [] List.nodup_nil
  have hraw_pos : 1 ≤ raw.length := List.length_pos.mpr hraw_ne
  refine ⟨rankRows k 1 sorted, hrun, ?_, hpermkeys, ?_, ?_, ?_, ?_, ?_⟩
  · rw [rankRows_length k sorted 1, hlensorted, hnlen]
  · exact hpermkeys.nodup_iff.mpr hdknodup
  · rw [rankRows_winner_count k sorted 1, hnlen, hlensorted, hk, hlensorted]
    omega
  · intro row hmem
    rw [show max 1 ((distinctScenarioKeys results).length / 5) = k by
      rw [hk, hlensorted, hnlen]]
    exact rankRows_winner_iff k sorted 1 row hmem
  · have hp : List.Pairwise totalLe sorted := List.sorted_insertionSort totalLe totals
    rw [← rankRows_totals_map k sorted 1] at hp
    have hp2 := List.pairwise_map.mp hp
    exact hp2.imp (fun h => h)
  · intro i row h
    have := rankRows_rank_eq k sorted 1 i row h
    omega

/-- C9 witness: the amended theorem applied to one concrete result with two
input rows (scenario keys 1 and 2) and two output reports; n = 2 distinct
keys, so exactly max(1, floor(0.2 * 2)) = 1 winner is marked. -/
theorem run_aggregate_winner_count_witness :
    ∃ rows : List RankRow,
      run_aggregateM [⟨"u", [⟨1⟩, ⟨2⟩], [[⟨0, 1, 2⟩], [⟨0, 3, 4⟩]]⟩] =
        AggOutcome.ranked rows ∧
      (rows.filter (fun row => row.winner)).length =
        max 1 ((distinctScenarioKeys
          [⟨"u", [⟨1⟩, ⟨2⟩], [[⟨0, 1, 2⟩], [⟨0, 3, 4⟩]]⟩]).length / 5) := by
  obtain ⟨rows, h1, _, _, _, h5, _⟩ :=
    run_aggregate_winner_count [⟨"u", [⟨1⟩, ⟨2⟩], [[⟨0, 1, 2⟩], [⟨0, 3, 4⟩]]⟩]
      (by decide) (by decide)
      ⟨⟨"u", [⟨1⟩, ⟨2⟩], [[⟨0, 1, 2⟩], [⟨0, 3, 4⟩]]⟩,
        List.mem_cons_self _ _, by decide⟩
  exact ⟨rows, h1, h5⟩

end EquitableBatch
